import Mathlib

/-!
Verification development for the Omni Gratum time-tracking system.

Part I embeds the PostgreSQL schema (tables, CHECK constraints, UNIQUE
constraints, foreign keys with their ON DELETE actions, and index
declarations) as a shallow Lean model: a `DB` record of row lists, a
decidable `dbValid` predicate for the declared constraints, and functions
implementing the row-deletion semantics the foreign-key actions dictate.

Part II models the core engine (timer-session lifecycle, time-entry
recording, timesheet aggregation and the approval workflow) from the
design document, since only the schema and the login page are present in
the repository sources; those definitions carry a `Modelled from the
spec:` doc comment.

Part III embeds the login page submit handler as an effect trace.
-/

/-- UUID primary keys are modelled as natural numbers. -/
abbrev UUID := Nat

/-- Row of the `users` table. -/
structure UserRow where
  id : UUID
  email : String
  name : String
  password : String
  role : String
  status : String
  default_project : Option UUID
  default_task : Option UUID
  deriving DecidableEq

/-- Row of the `projects` table. -/
structure ProjectRow where
  id : UUID
  name : String
  created_by : UUID
  status : String
  deriving DecidableEq

/-- Row of the `tasks` table. -/
structure TaskRow where
  id : UUID
  name : String
  project_id : UUID
  status : String
  deriving DecidableEq

/-- Row of the `time_entries` table; timestamps are seconds, `date` a day number. -/
structure TimeEntryRow where
  id : UUID
  user_id : UUID
  project_id : UUID
  task_id : UUID
  start_time : Int
  end_time : Option Int
  duration : Int
  entry_type : String
  date : Int
  notes : Option String
  deriving DecidableEq

/-- Row of the `timer_sessions` table. -/
structure TimerSessionRow where
  id : UUID
  user_id : UUID
  project_id : UUID
  task_id : UUID
  start_time : Int
  last_heartbeat : Int
  is_active : Bool
  date : Int
  deriving DecidableEq

/-- Row of the `timesheets` table; `total_hours` (DECIMAL(10,2)) is kept in hundredths. -/
structure TimesheetRow where
  id : UUID
  user_id : UUID
  week_start : Int
  week_end : Int
  total_hours : Int
  status : String
  submitted_at : Option Int
  reviewed_at : Option Int
  reviewed_by : Option UUID
  admin_comment : Option String
  deriving DecidableEq

/-- Row of the `notifications` table. -/
structure NotificationRow where
  id : UUID
  user_id : UUID
  type : String
  title : String
  message : String
  read : Bool
  related_timesheet_id : Option UUID
  deriving DecidableEq

/-- The whole store: one list of rows per table of the schema. -/
structure DB where
  users : List UserRow
  projects : List ProjectRow
  tasks : List TaskRow
  time_entries : List TimeEntryRow
  timer_sessions : List TimerSessionRow
  timesheets : List TimesheetRow
  notifications : List NotificationRow
  deriving DecidableEq

/-- CHECK constraints of `users`: role IN (admin, employee), status IN (active, inactive). -/
def userRowOk (u : UserRow) : Bool :=
  (u.role == "admin" || u.role == "employee") &&
  (u.status == "active" || u.status == "inactive")

/-- CHECK constraint of `time_entries`: entry_type IN (timer, manual). -/
def timeEntryRowOk (e : TimeEntryRow) : Bool :=
  e.entry_type == "timer" || e.entry_type == "manual"

/-- CHECK constraint of `timesheets`: status IN (draft, submitted, approved, denied). -/
def timesheetRowOk (t : TimesheetRow) : Bool :=
  t.status == "draft" || t.status == "submitted" ||
  t.status == "approved" || t.status == "denied"

/-- CHECK constraint of `notifications`: type IN the three timesheet event kinds. -/
def notificationRowOk (n : NotificationRow) : Bool :=
  n.type == "timesheet_submitted" || n.type == "timesheet_approved" ||
  n.type == "timesheet_denied"

/-- A user id is present in the store (target of a REFERENCES users(id)). -/
def hasUser (db : DB) (uid : UUID) : Bool := db.users.any (fun u => u.id == uid)

/-- A project id is present in the store. -/
def hasProject (db : DB) (pid : UUID) : Bool := db.projects.any (fun p => p.id == pid)

/-- A task id is present in the store. -/
def hasTask (db : DB) (tid : UUID) : Bool := db.tasks.any (fun t => t.id == tid)

/-- A timesheet id is present in the store. -/
def hasTimesheet (db : DB) (tid : UUID) : Bool := db.timesheets.any (fun t => t.id == tid)

/-- All constraints the schema declares: CHECKs, primary-key uniqueness, the
UNIQUE constraint on `users.email`, and every foreign key.  Nothing in the
schema constrains how many `is_active = true` timer sessions a user may have. -/
def dbValid (db : DB) : Bool :=
  db.users.all userRowOk &&
  decide (db.users.map (fun u => u.id)).Nodup &&
  decide (db.users.map (fun u => u.email)).Nodup &&
  decide (db.projects.map (fun p => p.id)).Nodup &&
  db.projects.all (fun p => hasUser db p.created_by) &&
  decide (db.tasks.map (fun t => t.id)).Nodup &&
  db.tasks.all (fun t => hasProject db t.project_id) &&
  decide (db.time_entries.map (fun e => e.id)).Nodup &&
  db.time_entries.all (fun e =>
    timeEntryRowOk e && hasUser db e.user_id &&
    hasProject db e.project_id && hasTask db e.task_id) &&
  decide (db.timer_sessions.map (fun s => s.id)).Nodup &&
  db.timer_sessions.all (fun s =>
    hasUser db s.user_id && hasProject db s.project_id && hasTask db s.task_id) &&
  decide (db.timesheets.map (fun t => t.id)).Nodup &&
  db.timesheets.all (fun t =>
    timesheetRowOk t && hasUser db t.user_id &&
    (match t.reviewed_by with | none => true | some r => hasUser db r)) &&
  decide (db.notifications.map (fun n => n.id)).Nodup &&
  db.notifications.all (fun n =>
    notificationRowOk n && hasUser db n.user_id &&
    (match n.related_timesheet_id with | none => true | some t => hasTimesheet db t))

/-- An index declaration of the schema: the table, the column list, and
whether the index was declared UNIQUE. -/
structure IndexDef where
  table : String
  columns : List String
  isUnique : Bool
  deriving DecidableEq

/-- The schema's `CREATE INDEX idx_timer_sessions_user_active ON timer_sessions(user_id, is_active)`:
a plain index, not declared UNIQUE and with no partial WHERE clause. -/
def idx_timer_sessions_user_active : IndexDef :=
  { table := "timer_sessions", columns := ["user_id", "is_active"], isUnique := false }

/-- The schema's `CREATE INDEX idx_timesheets_week ON timesheets(week_start, week_end)`. -/
def idx_timesheets_week : IndexDef :=
  { table := "timesheets", columns := ["week_start", "week_end"], isUnique := false }

/-- Number of active timer sessions a user holds. -/
def activeCount (db : DB) (uid : UUID) : Nat :=
  (db.timer_sessions.filter (fun s => s.user_id == uid && s.is_active)).length

/-- Error raised by a store operation that would break a declared constraint. -/
inductive SqlError where
  | fkRestrict
  | uniqueDup
  | checkFail
  deriving DecidableEq

/-- Semantics of `DELETE FROM users WHERE id = uid` under the schema's
foreign-key actions: `projects.created_by` and `timesheets.reviewed_by`
reference users with the default NO ACTION, so the delete fails while such a
reference survives; `time_entries.user_id`, `timer_sessions.user_id`,
`timesheets.user_id` and `notifications.user_id` are ON DELETE CASCADE; the
cascaded timesheet deletions trigger ON DELETE SET NULL on
`notifications.related_timesheet_id`. -/
def deleteUser (db : DB) (uid : UUID) : Except SqlError DB :=
  if db.projects.any (fun p => p.created_by == uid) then
    .error .fkRestrict
  else if db.timesheets.any (fun t => t.reviewed_by == some uid && !(t.user_id == uid)) then
    .error .fkRestrict
  else
    let deadTs := (db.timesheets.filter (fun t => t.user_id == uid)).map (fun t => t.id)
    .ok { db with
      users := db.users.filter (fun u => !(u.id == uid)),
      time_entries := db.time_entries.filter (fun e => !(e.user_id == uid)),
      timer_sessions := db.timer_sessions.filter (fun s => !(s.user_id == uid)),
      timesheets := db.timesheets.filter (fun t => !(t.user_id == uid)),
      notifications := (db.notifications.filter (fun n => !(n.user_id == uid))).map
        (fun n => match n.related_timesheet_id with
          | none => n
          | some t => if deadTs.contains t then { n with related_timesheet_id := none } else n) }

/-- Semantics of `DELETE FROM projects WHERE id = pid`: `tasks.project_id` is
ON DELETE CASCADE, while `time_entries.project_id`, `timer_sessions.project_id`,
`time_entries.task_id` and `timer_sessions.task_id` are NO ACTION, so the
delete fails while a time entry or timer session references the project or one
of its tasks. -/
def deleteProject (db : DB) (pid : UUID) : Except SqlError DB :=
  let deadTasks := (db.tasks.filter (fun t => t.project_id == pid)).map (fun t => t.id)
  if db.time_entries.any (fun e => e.project_id == pid || deadTasks.contains e.task_id) then
    .error .fkRestrict
  else if db.timer_sessions.any (fun s => s.project_id == pid || deadTasks.contains s.task_id) then
    .error .fkRestrict
  else
    .ok { db with
      projects := db.projects.filter (fun p => !(p.id == pid)),
      tasks := db.tasks.filter (fun t => !(t.project_id == pid)) }

/-- Semantics of `DELETE FROM timesheets WHERE id = tid`: the only reference
to timesheets is `notifications.related_timesheet_id` with ON DELETE SET NULL,
so the delete always succeeds and nulls that column on referencing rows. -/
def deleteTimesheet (db : DB) (tid : UUID) : DB :=
  { db with
    timesheets := db.timesheets.filter (fun t => !(t.id == tid)),
    notifications := db.notifications.map
      (fun n => if n.related_timesheet_id == some tid
        then { n with related_timesheet_id := none } else n) }

/-- Semantics of `INSERT INTO users`: the insert fails when a CHECK constraint
fails, when the UNIQUE constraint on email is violated, or on a primary-key
duplicate. -/
def insertUser (db : DB) (u : UserRow) : Except SqlError DB :=
  if !(userRowOk u) then .error .checkFail
  else if db.users.any (fun x => x.email == u.email) then .error .uniqueDup
  else if db.users.any (fun x => x.id == u.id) then .error .uniqueDup
  else .ok { db with users := u :: db.users }

/-- Error kinds of the core engine, from the error-handling design. -/
inductive CoreError where
  | validationErr
  | conflictErr
  | notFoundErr
  | authErr
  | transientErr
  deriving DecidableEq

/-- Modelled from the spec: the session date is the UTC calendar day of a
timestamp; with timestamps in seconds this is the day number. -/
def dateOf (t : Int) : Int := t / 86400

/-- Modelled from the spec: `getActive(user)` returns the active session or
null; pure read.  The TimerSessionManager source is not in the repository. -/
def getActive (db : DB) (uid : UUID) : Option TimerSessionRow :=
  db.timer_sessions.find? (fun s => s.user_id == uid && s.is_active)

/-- Modelled from the spec: `start(user, project, task, now)` fails with
ConflictError if an active session already exists for the user, otherwise
creates a TimerSession with start_time = last_heartbeat = now, is_active =
true, date = now.date().  `sid` is the fresh row id. -/
def start (db : DB) (uid pid tid : UUID) (now : Int) (sid : UUID) :
    Except CoreError DB :=
  match getActive db uid with
  | some _ => .error .conflictErr
  | none => .ok { db with timer_sessions :=
      ⟨sid, uid, pid, tid, now, now, true, dateOf now⟩ :: db.timer_sessions }

/-- Modelled from the spec: `heartbeat(user, now)` fails with NotFoundError if
no active session exists, otherwise advances last_heartbeat only. -/
def heartbeat (db : DB) (uid : UUID) (now : Int) : Except CoreError DB :=
  match getActive db uid with
  | none => .error .notFoundErr
  | some s =>
    let ts := db.timer_sessions.map
      (fun x => if x.id == s.id then { x with last_heartbeat := now } else x)
    .ok { db with timer_sessions := ts }

/-- Modelled from the spec: the single session-termination path shared by stop
and the reaper; flips is_active to false and builds the timer-type TimeEntry
with duration = end_time - start_time, clamping end_time to start_time when
the candidate end lies before the start (clock skew). -/
def terminateSession (s : TimerSessionRow) (endCand : Int) (eid : UUID) :
    TimeEntryRow × TimerSessionRow :=
  let e := if endCand < s.start_time then s.start_time else endCand
  (⟨eid, s.user_id, s.project_id, s.task_id, s.start_time, some e,
    e - s.start_time, "timer", s.date, none⟩,
   { s with is_active := false })

/-- Modelled from the spec: `stop(user, now)` fails with NotFoundError if no
active session exists, otherwise marks it inactive and records a TimeEntry
with end_time = now (clamped).  `eid` is the fresh entry id. -/
def stop (db : DB) (uid : UUID) (now : Int) (eid : UUID) : Except CoreError DB :=
  match getActive db uid with
  | none => .error .notFoundErr
  | some s =>
    let p := terminateSession s now eid
    .ok { db with
      timer_sessions := db.timer_sessions.map (fun x => if x.id == s.id then p.2 else x),
      time_entries := p.1 :: db.time_entries }

/-- Modelled from the spec: one reaper step on session `sid`; if the session
is active and its heartbeat is older than the staleness threshold, it is
terminated through the same path as stop with end_time = last_heartbeat,
otherwise nothing happens (idempotent). -/
def reapSession (db : DB) (sid : UUID) (now threshold : Int) (eid : UUID) : DB :=
  match db.timer_sessions.find? (fun s => s.id == sid) with
  | none => db
  | some s =>
    if s.is_active && decide (threshold < now - s.last_heartbeat) then
      let p := terminateSession s s.last_heartbeat eid
      { db with
        timer_sessions := db.timer_sessions.map (fun x => if x.id == s.id then p.2 else x),
        time_entries := p.1 :: db.time_entries }
    else db

/-- Modelled from the spec: `recordManual` fails with ValidationError if
end_time < start_time, if project or task is inactive, or if the task does not
belong to the project; otherwise it records a manual entry with derived
duration. -/
def recordManual (db : DB) (uid pid tid : UUID) (startT endT : Int)
    (notes : Option String) (eid : UUID) : Except CoreError DB :=
  if endT < startT then .error .validationErr
  else
    match db.projects.find? (fun p => p.id == pid),
          db.tasks.find? (fun t => t.id == tid) with
    | some p, some t =>
      if !(p.status == "active") || !(t.status == "active") then .error .validationErr
      else if !(t.project_id == pid) then .error .validationErr
      else .ok { db with time_entries :=
        ⟨eid, uid, pid, tid, startT, some endT, endT - startT, "manual",
         dateOf startT, notes⟩ :: db.time_entries }
    | _, _ => .error .notFoundErr

/-- Modelled from the spec: a DECIMAL(10,2) hours figure in hundredths,
sum of durations in seconds divided by 3600 rounded to two decimals. -/
def round2 (secs : Int) : Int := (secs * 100 + 1800) / 3600

/-- Modelled from the spec: sum of durations of a user's entries whose date
falls in the closed week window. -/
def sumDur (db : DB) (uid : UUID) (ws we : Int) : Int :=
  ((db.time_entries.filter (fun e =>
      e.user_id == uid && decide (ws ≤ e.date) && decide (e.date ≤ we))).map
    (fun e => e.duration)).foldl (fun a b => a + b) 0

/-- Modelled from the spec: recompute total_hours of every draft timesheet
from the current entries; submitted, approved and denied timesheets are frozen
snapshots and are left untouched. -/
def recomputeAll (db : DB) : DB :=
  { db with timesheets := db.timesheets.map (fun t =>
      if t.status == "draft"
      then { t with total_hours := round2 (sumDur db t.user_id t.week_start t.week_end) }
      else t) }

/-- Modelled from the spec: `delete(entry_id, requester)` fails with
NotFoundError if the entry is absent and with AuthorizationError unless the
requester owns the entry or is an admin; deletion triggers recomputation of
draft timesheets. -/
def deleteEntry (db : DB) (eid : UUID) (requester : UUID) : Except CoreError DB :=
  match db.time_entries.find? (fun e => e.id == eid) with
  | none => .error .notFoundErr
  | some e =>
    let isAdmin := db.users.any (fun u => u.id == requester && u.role == "admin")
    if !(e.user_id == requester) && !isAdmin then .error .authErr
    else
      .ok (recomputeAll
        { db with time_entries := db.time_entries.filter (fun x => !(x.id == eid)) })

/-- Modelled from the spec: `ensureDraft(user, week_start)` computes week_end =
week_start + 6; when no timesheet exists for (user, week_start) it creates a
draft with derived total_hours, and when a draft exists it recomputes
total_hours; a submitted, approved or denied timesheet is left untouched.
`tsId` is the fresh row id. -/
def ensureDraft (db : DB) (uid : UUID) (ws : Int) (tsId : UUID) : DB :=
  let we := ws + 6
  match db.timesheets.find? (fun t => t.user_id == uid && t.week_start == ws) with
  | some t =>
    if t.status == "draft" then
      { db with timesheets := db.timesheets.map (fun x =>
          if x.id == t.id
          then { x with total_hours := round2 (sumDur db uid ws we) } else x) }
    else db
  | none =>
    { db with timesheets :=
        ⟨tsId, uid, ws, we, round2 (sumDur db uid ws we), "draft",
         none, none, none, none⟩ :: db.timesheets }

/-- Modelled from the spec: `submit(timesheet, now)` requires status = draft
(ConflictError otherwise), sets status = submitted and submitted_at = now, and
emits one timesheet_submitted notification per admin recipient, carrying a
reference to the timesheet.  Fresh notification ids start at `nidBase`. -/
def submit (db : DB) (tsId : UUID) (now : Int) (nidBase : UUID) :
    Except CoreError DB :=
  match db.timesheets.find? (fun t => t.id == tsId) with
  | none => .error .notFoundErr
  | some t =>
    if !(t.status == "draft") then .error .conflictErr
    else
      let admins := db.users.filter (fun u => u.role == "admin")
      let notifs := admins.enum.map (fun p =>
        (⟨nidBase + p.1, p.2.id, "timesheet_submitted", "Timesheet submitted",
          "A timesheet was submitted for review", false, some tsId⟩ : NotificationRow))
      .ok { db with
        timesheets := db.timesheets.map (fun x =>
          if x.id == tsId
          then { x with status := "submitted", submitted_at := some now } else x),
        notifications := notifs ++ db.notifications }

/-- Field update applied by review to the timesheet row under decision. -/
def applyReview (st : String) (now : Int) (reviewer : UUID) (comment : Option String) (x : TimesheetRow) : TimesheetRow :=
  { x with status := st, reviewed_at := some now, reviewed_by := some reviewer, admin_comment := comment }

/-- Field update applied by reopen to the timesheet row. -/
def applyReopen (x : TimesheetRow) : TimesheetRow :=
  { x with status := "draft", submitted_at := none, reviewed_at := none, reviewed_by := none, admin_comment := none }

/-- A review decision. -/
inductive Decision where
  | approve
  | deny
  deriving DecidableEq

/-- Modelled from the spec: `review(timesheet, reviewer, decision, comment,
now)` requires status = submitted (ConflictError otherwise); denying without a
comment is a ValidationError; on success it sets the terminal status and
review fields and emits the matching notification to the timesheet's owner. -/
def review (db : DB) (tsId : UUID) (reviewer : UUID) (d : Decision)
    (comment : Option String) (now : Int) (nid : UUID) : Except CoreError DB :=
  match db.timesheets.find? (fun t => t.id == tsId) with
  | none => .error .notFoundErr
  | some t =>
    if !(t.status == "submitted") then .error .conflictErr
    else
      match d with
      | .approve =>
        let ts := db.timesheets.map (fun x =>
          if x.id == tsId then applyReview "approved" now reviewer comment x else x)
        let nf : NotificationRow :=
          ⟨nid, t.user_id, "timesheet_approved", "Timesheet approved",
           "Your timesheet was approved", false, some tsId⟩
        .ok { db with timesheets := ts, notifications := nf :: db.notifications }
      | .deny =>
        match comment with
        | none => .error .validationErr
        | some c =>
          let ts := db.timesheets.map (fun x =>
            if x.id == tsId then applyReview "denied" now reviewer (some c) x else x)
          let nf : NotificationRow :=
            ⟨nid, t.user_id, "timesheet_denied", "Timesheet denied",
             "Your timesheet was denied", false, some tsId⟩
          .ok { db with timesheets := ts, notifications := nf :: db.notifications }

/-- Modelled from the spec: `reopen(timesheet)` requires status = denied
(ConflictError otherwise) and resets the timesheet to draft, clearing
submitted_at, reviewed_at, reviewed_by and admin_comment. -/
def reopen (db : DB) (tsId : UUID) : Except CoreError DB :=
  match db.timesheets.find? (fun t => t.id == tsId) with
  | none => .error .notFoundErr
  | some t =>
    if !(t.status == "denied") then .error .conflictErr
    else
      .ok { db with timesheets := db.timesheets.map (fun x =>
        if x.id == tsId then applyReopen x else x) }

/-- Result object returned by the auth context's login call in LoginPage.js. -/
structure LoginResult where
  success : Bool
  error : String
  deriving DecidableEq

/-- Observable effects of the login page submit handler. -/
inductive Effect where
  | setLoading (b : Bool)
  | loginCall (email password : String)
  | toastSuccess (msg : String)
  | toastError (msg : String)
  | navigate (path : String)
  deriving DecidableEq

/-- Shallow embedding of handleSubmit in LoginPage.js: prevent default, set
loading, await login(email, password), clear loading, then on success toast
and navigate to /dashboard, on failure toast the error. -/
def handleSubmit (login : String → String → LoginResult) (email password : String) :
    List Effect :=
  let result := login email password
  [Effect.setLoading true, Effect.loginCall email password, Effect.setLoading false] ++
    (if result.success
     then [Effect.toastSuccess "Login successful!", Effect.navigate "/dashboard"]
     else [Effect.toastError result.error])

/-- The submit button's disabled prop is exactly the loading state. -/
def buttonDisabled (loading : Bool) : Bool := loading

/-- The loading state after a list of effects has executed, from the initial
useState(false). -/
def loadingAfter (es : List Effect) : Bool :=
  es.foldl (fun st ef => match ef with | Effect.setLoading b => b | _ => st) false

/-- A form submission is processed only while the submit button is enabled. -/
def submitAllowed (loading : Bool) : Bool := !(buttonDisabled loading)

/-- Recognizer for the login call effect. -/
def isLoginCall (ef : Effect) : Bool :=
  match ef with | Effect.loginCall _ _ => true | _ => false

/-- The time-entry invariant: non-null end_time, end_time at or after
start_time, and duration derived as their difference, hence nonnegative. -/
def entryOk (e : TimeEntryRow) : Bool :=
  match e.end_time with
  | none => false
  | some et =>
    decide (e.start_time ≤ et) && (e.duration == et - e.start_time) &&
    decide (0 ≤ e.duration)

/-- All persisted time entries satisfy the entry invariant. -/
def entriesOk (db : DB) : Bool := db.time_entries.all entryOk

/-- The key of the one-timesheet-per-(user, week_start) invariant. -/
def tsKey (t : TimesheetRow) : UUID × Int := (t.user_id, t.week_start)

/-- At most one timesheet per (user, week_start). -/
def tsUnique (db : DB) : Prop := (db.timesheets.map tsKey).Nodup

instance (db : DB) : Decidable (tsUnique db) := by
  unfold tsUnique
  infer_instance

/-- All rows carrying an enumerated column stay within the listed value sets. -/
def enumOk (db : DB) : Bool :=
  db.users.all userRowOk && db.time_entries.all timeEntryRowOk &&
  db.timesheets.all timesheetRowOk && db.notifications.all notificationRowOk

/-- Whether a store operation succeeded. -/
def isOkE {ε α : Type} (x : Except ε α) : Bool :=
  match x with | .ok _ => true | .error _ => false

/-- Mapping a key-preserving function over timesheets leaves the key list unchanged. -/
lemma tsKey_map_map (l : List TimesheetRow) (g : TimesheetRow → TimesheetRow)
    (h : ∀ t, tsKey (g t) = tsKey t) : (l.map g).map tsKey = l.map tsKey := by
  induction l with
  | nil => rfl
  | cons a l ih => simp [List.map_cons, h, ih]

/-- Key-distinctness survives a key-preserving row update. -/
lemma keyNodup_map {l : List TimesheetRow} {g : TimesheetRow → TimesheetRow}
    (hg : ∀ t, tsKey (g t) = tsKey t) (h : (l.map tsKey).Nodup) :
    ((l.map g).map tsKey).Nodup := by
  rw [tsKey_map_map l g hg]; exact h

/-- Key-distinctness survives dropping rows. -/
lemma keyNodup_filter {l : List TimesheetRow} (p : TimesheetRow → Bool)
    (h : (l.map tsKey).Nodup) : ((l.filter p).map tsKey).Nodup :=
  List.Nodup.sublist (List.Sublist.map tsKey (List.filter_sublist l)) h

/-- Prepending a row whose (user, week_start) key is absent keeps keys distinct. -/
lemma keyNodup_cons {l : List TimesheetRow} {uid : UUID} {ws : Int}
    (hf : l.find? (fun t => t.user_id == uid && t.week_start == ws) = none)
    (h : (l.map tsKey).Nodup) (t0 : TimesheetRow)
    (h0 : t0.user_id = uid) (h1 : t0.week_start = ws) :
    ((t0 :: l).map tsKey).Nodup := by
  simp only [List.map_cons, List.nodup_cons]
  refine ⟨?_, h⟩
  intro hmem
  obtain ⟨t, htl, hkey⟩ := List.mem_map.1 hmem
  have hu : t.user_id = t0.user_id := congrArg Prod.fst hkey
  have hw : t.week_start = t0.week_start := congrArg Prod.snd hkey
  have := List.find?_eq_none.1 hf t htl
  simp [hu, hw, h0, h1] at this

/-- A state with two active timer sessions for user 1, used to probe the schema. -/
def doubleActiveDB : DB :=
  { users := [⟨1, "admin@omnigratum.com", "Admin User", "hash", "admin", "active", none, none⟩],
    projects := [⟨1, "Internal", 1, "active"⟩],
    tasks := [⟨1, "General", 1, "active"⟩],
    time_entries := [],
    timer_sessions := [⟨1, 1, 1, 1, 0, 0, true, 0⟩, ⟨2, 1, 1, 1, 5, 5, true, 0⟩],
    timesheets := [],
    notifications := [] }

/-- C1: the schema's only index on timer_sessions(user_id, is_active) is a
plain, non-UNIQUE index, and a store state holding two is_active = true
sessions for the same user satisfies every constraint the schema declares, so
the store does not enforce one active TimerSession per user and cannot by
itself make concurrent start calls mutually exclusive. -/
theorem schema_no_unique_active_index :
    idx_timer_sessions_user_active.isUnique = false ∧
    activeCount doubleActiveDB 1 = 2 ∧
    dbValid doubleActiveDB = true := by decide

/-- C7: deleting a Timesheet keeps every Notification row alive; a row whose
related_timesheet_id referenced the deleted timesheet survives with that
reference set to null and all other fields unchanged, any other row survives
unchanged, and the timesheet itself is removed while all other timesheets
survive. -/
theorem timesheet_delete_weak_notification_ref (db : DB) (tid : UUID) :
    (deleteTimesheet db tid).notifications.length = db.notifications.length ∧
    db.notifications.all (fun n =>
      decide ((if n.related_timesheet_id == some tid
               then { n with related_timesheet_id := none } else n)
              ∈ (deleteTimesheet db tid).notifications)) = true ∧
    (deleteTimesheet db tid).timesheets.all (fun t => !(t.id == tid)) = true ∧
    (db.timesheets.filter (fun t => !(t.id == tid))).all
      (fun t => decide (t ∈ (deleteTimesheet db tid).timesheets)) = true := by
  refine ⟨?_, ?_, ?_, ?_⟩
  · simp [deleteTimesheet]
  · simp only [deleteTimesheet, List.all_eq_true, decide_eq_true_eq]
    intro n hn
    exact List.mem_map_of_mem _ hn
  · simp only [deleteTimesheet, List.all_eq_true]
    intro t ht
    exact (List.mem_filter.1 ht).2
  · simp only [deleteTimesheet, List.all_eq_true, decide_eq_true_eq]
    intro t ht
    exact ht

/-- C10: one submission of the login form calls login exactly once with the
entered email and password, navigates to /dashboard exactly when the returned
result's success field is true and nowhere else, and the loading flag that
disables the submit button is set before the login call and stays set until
the call has returned, so a second submission cannot start while one is in
flight. -/
theorem login_submit_trace (login : String → String → LoginResult)
    (email password pth : String) :
    (handleSubmit login email password).countP isLoginCall = 1 ∧
    Effect.loginCall email password ∈ handleSubmit login email password ∧
    (Effect.navigate "/dashboard" ∈ handleSubmit login email password ↔
      (login email password).success = true) ∧
    (Effect.navigate pth ∈ handleSubmit login email password → pth = "/dashboard") ∧
    (handleSubmit login email password).take 3 =
      [Effect.setLoading true, Effect.loginCall email password, Effect.setLoading false] ∧
    loadingAfter ((handleSubmit login email password).take 1) = true ∧
    loadingAfter ((handleSubmit login email password).take 2) = true ∧
    submitAllowed (loadingAfter ((handleSubmit login email password).take 1)) = false ∧
    submitAllowed (loadingAfter ((handleSubmit login email password).take 2)) = false := by
  cases hs : (login email password).success <;>
    simp [handleSubmit, hs, isLoginCall, loadingAfter, submitAllowed, buttonDisabled,
      List.countP_cons, List.countP_nil]

/-- Witness for the login page theorem at a succeeding and concrete input. -/
theorem login_submit_trace_witness :
    (handleSubmit (fun _ _ => ⟨true, ""⟩) "a@b.c" "pw").countP isLoginCall = 1 ∧
    Effect.loginCall "a@b.c" "pw" ∈ handleSubmit (fun _ _ => ⟨true, ""⟩) "a@b.c" "pw" ∧
    (Effect.navigate "/dashboard" ∈ handleSubmit (fun _ _ => ⟨true, ""⟩) "a@b.c" "pw" ↔
      ((fun (_ _ : String) => (⟨true, ""⟩ : LoginResult)) "a@b.c" "pw").success = true) ∧
    (Effect.navigate "/dashboard" ∈ handleSubmit (fun _ _ => ⟨true, ""⟩) "a@b.c" "pw" →
      "/dashboard" = "/dashboard") ∧
    (handleSubmit (fun _ _ => ⟨true, ""⟩) "a@b.c" "pw").take 3 =
      [Effect.setLoading true, Effect.loginCall "a@b.c" "pw", Effect.setLoading false] ∧
    loadingAfter ((handleSubmit (fun _ _ => ⟨true, ""⟩) "a@b.c" "pw").take 1) = true ∧
    loadingAfter ((handleSubmit (fun _ _ => ⟨true, ""⟩) "a@b.c" "pw").take 2) = true ∧
    submitAllowed (loadingAfter ((handleSubmit (fun _ _ => ⟨true, ""⟩) "a@b.c" "pw").take 1)) = false ∧
    submitAllowed (loadingAfter ((handleSubmit (fun _ _ => ⟨true, ""⟩) "a@b.c" "pw").take 2)) = false :=
  login_submit_trace (fun _ _ => ⟨true, ""⟩) "a@b.c" "pw" "/dashboard"

/-- The successful result of a store operation, with a fallback. -/
def okOr {ε : Type} (x : Except ε DB) (d : DB) : DB :=
  match x with | .ok v => v | .error _ => d

/-- A schema-valid store has pairwise-distinct user emails. -/
lemma emails_nodup_of_dbValid {db : DB} (hv : dbValid db = true) :
    (db.users.map (fun x => x.email)).Nodup := by
  simp only [dbValid, Bool.and_eq_true, decide_eq_true_eq] at hv
  exact hv.1.1.1.1.1.1.1.1.1.1.1.1.2

/-- A schema-valid store satisfies every CHECK constraint. -/
lemma enum_of_dbValid {db : DB} (hv : dbValid db = true) : enumOk db = true := by
  simp only [dbValid, Bool.and_eq_true, decide_eq_true_eq] at hv
  simp only [enumOk, Bool.and_eq_true]
  refine ⟨⟨⟨?_, ?_⟩, ?_⟩, ?_⟩
  · exact hv.1.1.1.1.1.1.1.1.1.1.1.1.1.1
  · have h := hv.1.1.1.1.1.1.2
    simp only [List.all_eq_true, Bool.and_eq_true] at h ⊢
    intro e he
    exact (h e he).1.1.1
  · have h := hv.1.1.2
    simp only [List.all_eq_true, Bool.and_eq_true] at h ⊢
    intro t ht
    exact (h t ht).1.1
  · have h := hv.2
    simp only [List.all_eq_true, Bool.and_eq_true] at h ⊢
    intro n hn
    exact (h n hn).1.1

/-- C4: on an existing timesheet, review demands status submitted and fails
with ConflictError on any other status, and approved is terminal: submit,
review and reopen all fail with ConflictError on an approved timesheet. -/
theorem approval_state_machine_guards (db : DB) (tsId reviewer nid nb : UUID)
    (t : TimesheetRow) (d : Decision) (comment : Option String) (now : Int)
    (hf : db.timesheets.find? (fun x => x.id == tsId) = some t) :
    (¬ t.status = "submitted" →
      review db tsId reviewer d comment now nid = .error .conflictErr) ∧
    (t.status = "approved" →
      submit db tsId now nb = .error .conflictErr ∧
      review db tsId reviewer d comment now nid = .error .conflictErr ∧
      reopen db tsId = .error .conflictErr) := by
  constructor
  · intro hns
    have hb : (t.status == "submitted") = false := by
      simp [hns]
    simp [review, hf, hb]
  · intro ha
    refine ⟨?_, ?_, ?_⟩
    · simp [submit, hf, ha]
    · simp [review, hf, ha]
    · simp [reopen, hf, ha]

/-- An approved timesheet in an otherwise small store. -/
def approvedTs : TimesheetRow := ⟨5, 1, 0, 6, 0, "approved", none, some 0, some 9, none⟩

/-- Store with one approved timesheet for the state-machine witness. -/
def approvedDB : DB :=
  { users := [⟨1, "e@x.y", "E", "h", "employee", "active", none, none⟩],
    projects := [], tasks := [], time_entries := [], timer_sessions := [],
    timesheets := [approvedTs], notifications := [] }

/-- Witness: on the approved timesheet every further transition is refused. -/
theorem approval_state_machine_guards_witness :
    review approvedDB 5 9 Decision.approve none 0 0 = .error .conflictErr ∧
    submit approvedDB 5 0 0 = .error .conflictErr ∧
    reopen approvedDB 5 = .error .conflictErr := by
  have h := approval_state_machine_guards approvedDB 5 9 0 0 approvedTs
    Decision.approve none 0 (by decide)
  exact ⟨h.1 (by decide), (h.2 (by decide)).1, ((h.2 (by decide)).2.2)⟩

/-- C9: in a schema-valid store two distinct users never share an email, and
inserting a user whose email is already present fails instead of creating a
duplicate. -/
theorem email_unique_constraint (db : DB) (u u1 u2 : UserRow)
    (hv : dbValid db = true) :
    (u1 ∈ db.users → u2 ∈ db.users → u1.id ≠ u2.id → u1.email ≠ u2.email) ∧
    (db.users.any (fun x => x.email == u.email) = true →
      isOkE (insertUser db u) = false) := by
  constructor
  · intro h1 h2 hid he
    exact hid (congrArg UserRow.id
      (List.inj_on_of_nodup_map (emails_nodup_of_dbValid hv) h1 h2 he))
  · intro hdup
    simp only [insertUser]
    split
    · rfl
    · simp [hdup, isOkE]

/-- The two seeded accounts of the schema, abbreviated. -/
def seededDB : DB :=
  { users := [⟨1, "admin@omnigratum.com", "Admin User", "h1", "admin", "active", none, none⟩,
              ⟨2, "employee@omnigratum.com", "John Employee", "h2", "employee", "active", none, none⟩],
    projects := [], tasks := [], time_entries := [], timer_sessions := [],
    timesheets := [], notifications := [] }

/-- Witness: the seeded accounts have distinct emails and inserting a third
user that reuses the admin email fails. -/
theorem email_unique_constraint_witness :
    (⟨1, "admin@omnigratum.com", "Admin User", "h1", "admin", "active", none, none⟩ : UserRow).email ≠
      (⟨2, "employee@omnigratum.com", "John Employee", "h2", "employee", "active", none, none⟩ : UserRow).email ∧
    isOkE (insertUser seededDB ⟨3, "admin@omnigratum.com", "X", "h3", "employee", "active", none, none⟩) = false := by
  have h := email_unique_constraint seededDB
    ⟨3, "admin@omnigratum.com", "X", "h3", "employee", "active", none, none⟩
    ⟨1, "admin@omnigratum.com", "Admin User", "h1", "admin", "active", none, none⟩
    ⟨2, "employee@omnigratum.com", "John Employee", "h2", "employee", "active", none, none⟩
    (by decide)
  exact ⟨h.1 (by decide) (by decide) (by decide), h.2 (by decide)⟩

/-- C2: every time entry persisted by the core's creation paths (stop, the
reaper, manual recording) carries a non-null end_time with end_time at or
after start_time, and a duration derived as end_time - start_time, hence
nonnegative; timer-type entries never receive an independently supplied
duration. -/
theorem core_entry_duration_invariant (db db' : DB)
    (uid pid tid sid eid : UUID) (now th s e : Int) (notes : Option String)
    (h : entriesOk db = true) :
    (stop db uid now eid = .ok db' → entriesOk db' = true) ∧
    entriesOk (reapSession db sid now th eid) = true ∧
    (recordManual db uid pid tid s e notes eid = .ok db' → entriesOk db' = true) := by
  refine ⟨?_, ?_, ?_⟩
  · intro hstop
    simp only [stop] at hstop
    split at hstop
    · exact absurd hstop (by simp)
    · simp only [Except.ok.injEq] at hstop
      subst hstop
      simp only [entriesOk, List.all_cons, Bool.and_eq_true]
      refine ⟨?_, h⟩
      simp only [terminateSession, entryOk]
      split <;> simp <;> omega
  · unfold reapSession
    split
    · exact h
    · split
      · simp only [entriesOk, List.all_cons, Bool.and_eq_true]
        refine ⟨?_, h⟩
        simp only [terminateSession, entryOk]
        split <;> simp <;> omega
      · exact h
  · intro hrm
    simp only [recordManual] at hrm
    split at hrm
    · exact absurd hrm (by simp)
    · split at hrm
      · split at hrm
        · exact absurd hrm (by simp)
        · split at hrm
          · exact absurd hrm (by simp)
          · simp only [Except.ok.injEq] at hrm
            subst hrm
            simp only [entriesOk, List.all_cons, Bool.and_eq_true]
            refine ⟨?_, h⟩
            simp only [entryOk]
            simp
            omega
      · exact absurd hrm (by simp)

/-- A small store exercising every core operation: an admin, an employee with
a running session, one timer entry, and one timesheet in each status. -/
def coreDB : DB :=
  { users := [⟨1, "admin@omnigratum.com", "Admin User", "h1", "admin", "active", none, none⟩,
              ⟨2, "employee@omnigratum.com", "John Employee", "h2", "employee", "active", none, none⟩],
    projects := [⟨1, "Internal", 1, "active"⟩],
    tasks := [⟨1, "General", 1, "active"⟩],
    time_entries := [⟨8, 1, 1, 1, 0, some 3600, 3600, "timer", 0, none⟩],
    timer_sessions := [⟨7, 2, 1, 1, 100, 200, true, 0⟩],
    timesheets := [⟨9, 1, 0, 6, 100, "draft", none, none, none, none⟩,
                   ⟨10, 2, 0, 6, 0, "submitted", some 1, none, none, none⟩,
                   ⟨11, 2, 7, 13, 0, "denied", some 1, some 2, some 1, some "fix dates"⟩],
    notifications := [] }

/-- Witness: a stop, a reap and a manual record on the concrete store all keep
every persisted entry inside the duration invariant. -/
theorem core_entry_duration_invariant_witness :
    entriesOk (okOr (stop coreDB 2 500 50) coreDB) = true ∧
    entriesOk (reapSession coreDB 7 500 200 50) = true ∧
    entriesOk (okOr (recordManual coreDB 1 1 1 0 60 none 52) coreDB) = true := by
  have h1 := core_entry_duration_invariant coreDB (okOr (stop coreDB 2 500 50) coreDB)
    2 1 1 7 50 500 200 0 60 none (by decide)
  have h2 := core_entry_duration_invariant coreDB
    (okOr (recordManual coreDB 1 1 1 0 60 none 52) coreDB)
    1 1 1 7 52 500 200 0 60 none (by decide)
  exact ⟨h1.1 (by rfl), h1.2.1, h2.2.2 (by rfl)⟩

/-- C3: the one-timesheet-per-(user, week_start) property is preserved by
every core operation: the ten operations of the engine either leave the
timesheet set untouched, update rows in place without changing their key, drop
rows, or (ensureDraft) insert a draft only when no row with that key exists. -/
theorem core_timesheet_key_unique (db db' : DB)
    (uid pid tid sid eid reqd tsId nb nid reviewer : UUID)
    (now th s e ws : Int) (notes comment : Option String) (d : Decision)
    (h : tsUnique db) :
    (start db uid pid tid now sid = .ok db' → tsUnique db') ∧
    (heartbeat db uid now = .ok db' → tsUnique db') ∧
    (stop db uid now eid = .ok db' → tsUnique db') ∧
    tsUnique (reapSession db sid now th eid) ∧
    (recordManual db uid pid tid s e notes eid = .ok db' → tsUnique db') ∧
    (deleteEntry db eid reqd = .ok db' → tsUnique db') ∧
    tsUnique (ensureDraft db uid ws tsId) ∧
    (submit db tsId now nb = .ok db' → tsUnique db') ∧
    (review db tsId reviewer d comment now nid = .ok db' → tsUnique db') ∧
    (reopen db tsId = .ok db' → tsUnique db') := by
  refine ⟨?_, ?_, ?_, ?_, ?_, ?_, ?_, ?_, ?_, ?_⟩
  · intro hop
    simp only [start] at hop
    split at hop
    · exact absurd hop (by simp)
    · simp only [Except.ok.injEq] at hop
      subst hop
      exact h
  · intro hop
    simp only [heartbeat] at hop
    split at hop
    · exact absurd hop (by simp)
    · simp only [Except.ok.injEq] at hop
      subst hop
      exact h
  · intro hop
    simp only [stop] at hop
    split at hop
    · exact absurd hop (by simp)
    · simp only [Except.ok.injEq] at hop
      subst hop
      exact h
  · unfold reapSession
    split
    · exact h
    · split
      · exact h
      · exact h
  · intro hop
    simp only [recordManual] at hop
    split at hop
    · exact absurd hop (by simp)
    · split at hop
      · split at hop
        · exact absurd hop (by simp)
        · split at hop
          · exact absurd hop (by simp)
          · simp only [Except.ok.injEq] at hop
            subst hop
            exact h
      · exact absurd hop (by simp)
  · intro hop
    simp only [deleteEntry] at hop
    split at hop
    · exact absurd hop (by simp)
    · split at hop
      · exact absurd hop (by simp)
      · simp only [Except.ok.injEq] at hop
        subst hop
        exact keyNodup_map (fun t => by split <;> rfl) h
  · unfold ensureDraft
    split
    · split
      · exact keyNodup_map (fun t => by split <;> rfl) h
      · exact h
    · rename_i hfind
      exact keyNodup_cons hfind h _ rfl rfl
  · intro hop
    simp only [submit] at hop
    split at hop
    · exact absurd hop (by simp)
    · split at hop
      · exact absurd hop (by simp)
      · simp only [Except.ok.injEq] at hop
        subst hop
        exact keyNodup_map (fun t => by split <;> rfl) h
  · intro hop
    simp only [review] at hop
    split at hop
    · exact absurd hop (by simp)
    · split at hop
      · exact absurd hop (by simp)
      · split at hop
        · simp only [Except.ok.injEq] at hop
          subst hop
          exact keyNodup_map (fun t => by split <;> rfl) h
        · split at hop
          · exact absurd hop (by simp)
          · simp only [Except.ok.injEq] at hop
            subst hop
            exact keyNodup_map (fun t => by split <;> rfl) h
  · intro hop
    simp only [reopen] at hop
    split at hop
    · exact absurd hop (by simp)
    · split at hop
      · exact absurd hop (by simp)
      · simp only [Except.ok.injEq] at hop
        subst hop
        exact keyNodup_map (fun t => by split <;> rfl) h

/-- Witness: on the concrete store each of the ten core operations succeeds or
runs and the resulting timesheet sets keep one row per (user, week_start). -/
theorem core_timesheet_key_unique_witness :
    tsUnique (okOr (start coreDB 1 1 1 500 20) coreDB) ∧
    tsUnique (okOr (heartbeat coreDB 2 500) coreDB) ∧
    tsUnique (okOr (stop coreDB 2 500 50) coreDB) ∧
    tsUnique (reapSession coreDB 7 500 200 50) ∧
    tsUnique (okOr (recordManual coreDB 1 1 1 0 60 none 52) coreDB) ∧
    tsUnique (okOr (deleteEntry coreDB 8 1) coreDB) ∧
    tsUnique (ensureDraft coreDB 1 0 9) ∧
    tsUnique (okOr (submit coreDB 9 500 30) coreDB) ∧
    tsUnique (okOr (review coreDB 10 1 Decision.approve none 500 31) coreDB) ∧
    tsUnique (okOr (reopen coreDB 11) coreDB) := by
  have h1 := core_timesheet_key_unique coreDB (okOr (start coreDB 1 1 1 500 20) coreDB)
    1 1 1 20 52 1 9 30 31 1 500 200 0 60 0 none none Decision.approve (by decide)
  have h2 := core_timesheet_key_unique coreDB (okOr (heartbeat coreDB 2 500) coreDB)
    2 1 1 7 50 1 9 30 31 1 500 200 0 60 0 none none Decision.approve (by decide)
  have h3 := core_timesheet_key_unique coreDB (okOr (stop coreDB 2 500 50) coreDB)
    2 1 1 7 50 1 9 30 31 1 500 200 0 60 0 none none Decision.approve (by decide)
  have h5 := core_timesheet_key_unique coreDB
    (okOr (recordManual coreDB 1 1 1 0 60 none 52) coreDB)
    1 1 1 7 52 1 9 30 31 1 500 200 0 60 0 none none Decision.approve (by decide)
  have h6 := core_timesheet_key_unique coreDB (okOr (deleteEntry coreDB 8 1) coreDB)
    1 1 1 7 8 1 9 30 31 1 500 200 0 60 0 none none Decision.approve (by decide)
  have h8 := core_timesheet_key_unique coreDB (okOr (submit coreDB 9 500 30) coreDB)
    1 1 1 7 50 1 9 30 31 1 500 200 0 60 0 none none Decision.approve (by decide)
  have h9 := core_timesheet_key_unique coreDB
    (okOr (review coreDB 10 1 Decision.approve none 500 31) coreDB)
    1 1 1 7 50 1 10 30 31 1 500 200 0 60 0 none none Decision.approve (by decide)
  have h10 := core_timesheet_key_unique coreDB (okOr (reopen coreDB 11) coreDB)
    1 1 1 7 50 1 11 30 31 1 500 200 0 60 0 none none Decision.approve (by decide)
  exact ⟨h1.1 (by rfl), h2.2.1 (by rfl), h3.2.2.1 (by rfl), h2.2.2.2.1,
    h5.2.2.2.2.1 (by rfl), h6.2.2.2.2.2.1 (by rfl), h1.2.2.2.2.2.2.1,
    h8.2.2.2.2.2.2.2.1 (by rfl), h9.2.2.2.2.2.2.2.2.1 (by rfl),
    h10.2.2.2.2.2.2.2.2.2 (by rfl)⟩

/-- Employee 2 owns a submitted timesheet; admin 1 holds the notification that
references it. -/
def weakRefDB : DB :=
  { users := [⟨1, "admin@omnigratum.com", "Admin User", "h1", "admin", "active", none, none⟩,
              ⟨2, "employee@omnigratum.com", "John Employee", "h2", "employee", "active", none, none⟩],
    projects := [], tasks := [], time_entries := [], timer_sessions := [],
    timesheets := [⟨10, 2, 0, 6, 150, "submitted", some 1, none, none, none⟩],
    notifications := [⟨20, 1, "timesheet_submitted", "Timesheet submitted",
                       "A timesheet was submitted for review", false, some 10⟩] }

/-- Counterexample to C5 as stated: deleting employee 2 succeeds, yet the
notification list, whose only row is owned by admin 1, changes, because the
cascaded deletion of employee 2's timesheet nulls the admin notification's
related_timesheet_id. -/
theorem user_delete_touches_other_users_notification :
    isOkE (deleteUser weakRefDB 2) = true ∧
    (okOr (deleteUser weakRefDB 2) weakRefDB).notifications ≠ weakRefDB.notifications ∧
    weakRefDB.notifications.all (fun n => n.user_id == 1) = true := by decide

/-- C5 (amended): deleting a user removes exactly that user's timer sessions,
time entries, timesheets and notifications; projects and tasks are untouched;
every surviving record of another user is unchanged except that a notification
whose related_timesheet_id pointed at one of the deleted user's timesheets
survives with that reference nulled. -/
theorem user_delete_cascade_scope (db db' : DB) (uid : UUID)
    (h : deleteUser db uid = .ok db') :
    db'.users.all (fun u => !(u.id == uid)) = true ∧
    (db.users.filter (fun u => !(u.id == uid))).all
      (fun u => decide (u ∈ db'.users)) = true ∧
    db'.time_entries.all (fun e => !(e.user_id == uid)) = true ∧
    (db.time_entries.filter (fun e => !(e.user_id == uid))).all
      (fun e => decide (e ∈ db'.time_entries)) = true ∧
    db'.timer_sessions.all (fun x => !(x.user_id == uid)) = true ∧
    (db.timer_sessions.filter (fun x => !(x.user_id == uid))).all
      (fun x => decide (x ∈ db'.timer_sessions)) = true ∧
    db'.timesheets.all (fun t => !(t.user_id == uid)) = true ∧
    (db.timesheets.filter (fun t => !(t.user_id == uid))).all
      (fun t => decide (t ∈ db'.timesheets)) = true ∧
    db'.notifications.all (fun n => !(n.user_id == uid)) = true ∧
    db'.notifications.length =
      (db.notifications.filter (fun n => !(n.user_id == uid))).length ∧
    (db.notifications.filter (fun n => !(n.user_id == uid))).all
      (fun n => decide ((match n.related_timesheet_id with
        | none => n
        | some t =>
          if (((db.timesheets.filter (fun ts => ts.user_id == uid)).map
              (fun ts => ts.id)).contains t) = true
          then { n with related_timesheet_id := none } else n)
        ∈ db'.notifications)) = true ∧
    db'.projects = db.projects ∧
    db'.tasks = db.tasks := by
  simp only [deleteUser] at h
  split at h
  · exact absurd h (by simp)
  · split at h
    · exact absurd h (by simp)
    · simp only [Except.ok.injEq] at h
      subst h
      refine ⟨?_, ?_, ?_, ?_, ?_, ?_, ?_, ?_, ?_, ?_, ?_, rfl, rfl⟩
      · simp only [List.all_eq_true]
        intro x hx
        exact (List.mem_filter.1 hx).2
      · simp only [List.all_eq_true, decide_eq_true_eq]
        intro x hx
        exact hx
      · simp only [List.all_eq_true]
        intro x hx
        exact (List.mem_filter.1 hx).2
      · simp only [List.all_eq_true, decide_eq_true_eq]
        intro x hx
        exact hx
      · simp only [List.all_eq_true]
        intro x hx
        exact (List.mem_filter.1 hx).2
      · simp only [List.all_eq_true, decide_eq_true_eq]
        intro x hx
        exact hx
      · simp only [List.all_eq_true]
        intro x hx
        exact (List.mem_filter.1 hx).2
      · simp only [List.all_eq_true, decide_eq_true_eq]
        intro x hx
        exact hx
      · simp only [List.all_eq_true]
        intro x hx
        obtain ⟨n, hn, rfl⟩ := List.mem_map.1 hx
        have hnu := (List.mem_filter.1 hn).2
        cases hrel : n.related_timesheet_id with
        | none => simpa [hrel] using hnu
        | some t =>
          simp only [hrel]
          split <;> simpa using hnu
      · simp only [List.length_map]
      · simp only [List.all_eq_true, decide_eq_true_eq]
        intro n hn
        exact List.mem_map_of_mem _ hn

/-- The store after deleting employee 2 from weakRefDB. -/
def weakRefDBdel : DB := okOr (deleteUser weakRefDB 2) weakRefDB

/-- Witness: deleting employee 2 removes exactly that user's rows and leaves
projects, tasks and admin-owned rows in place up to the nulled reference. -/
theorem user_delete_cascade_scope_witness :
    weakRefDBdel.users.all (fun u => !(u.id == 2)) = true ∧
    (weakRefDB.users.filter (fun u => !(u.id == 2))).all
      (fun u => decide (u ∈ weakRefDBdel.users)) = true ∧
    weakRefDBdel.time_entries.all (fun e => !(e.user_id == 2)) = true ∧
    (weakRefDB.time_entries.filter (fun e => !(e.user_id == 2))).all
      (fun e => decide (e ∈ weakRefDBdel.time_entries)) = true ∧
    weakRefDBdel.timer_sessions.all (fun x => !(x.user_id == 2)) = true ∧
    (weakRefDB.timer_sessions.filter (fun x => !(x.user_id == 2))).all
      (fun x => decide (x ∈ weakRefDBdel.timer_sessions)) = true ∧
    weakRefDBdel.timesheets.all (fun t => !(t.user_id == 2)) = true ∧
    (weakRefDB.timesheets.filter (fun t => !(t.user_id == 2))).all
      (fun t => decide (t ∈ weakRefDBdel.timesheets)) = true ∧
    weakRefDBdel.notifications.all (fun n => !(n.user_id == 2)) = true ∧
    weakRefDBdel.notifications.length =
      (weakRefDB.notifications.filter (fun n => !(n.user_id == 2))).length ∧
    (weakRefDB.notifications.filter (fun n => !(n.user_id == 2))).all
      (fun n => decide ((match n.related_timesheet_id with
        | none => n
        | some t =>
          if (((weakRefDB.timesheets.filter (fun ts => ts.user_id == 2)).map
              (fun ts => ts.id)).contains t) = true
          then { n with related_timesheet_id := none } else n)
        ∈ weakRefDBdel.notifications)) = true ∧
    weakRefDBdel.projects = weakRefDB.projects ∧
    weakRefDBdel.tasks = weakRefDB.tasks :=
  user_delete_cascade_scope weakRefDB weakRefDBdel 2 (by rfl)

/-- C6: deleting a project is refused with a foreign-key restriction while any
time entry references it, and on success every task of the project is removed
with it while tasks of other projects and the other projects survive. -/
theorem project_delete_guard (db db' : DB) (pid : UUID) :
    (db.time_entries.any (fun e => e.project_id == pid) = true →
      deleteProject db pid = .error .fkRestrict) ∧
    (deleteProject db pid = .ok db' →
      db'.tasks.all (fun t => !(t.project_id == pid)) = true ∧
      (db.tasks.filter (fun t => !(t.project_id == pid))).all
        (fun t => decide (t ∈ db'.tasks)) = true ∧
      db'.projects.all (fun p => !(p.id == pid)) = true ∧
      (db.projects.filter (fun p => !(p.id == pid))).all
        (fun p => decide (p ∈ db'.projects)) = true) := by
  constructor
  · intro hany
    have hcond : (db.time_entries.any (fun e => e.project_id == pid ||
        ((db.tasks.filter (fun t => t.project_id == pid)).map
          (fun t => t.id)).contains e.task_id)) = true := by
      obtain ⟨x, hx, hp⟩ := List.any_eq_true.1 hany
      exact List.any_eq_true.2 ⟨x, hx, by simp only [hp, Bool.true_or]⟩
    simp only [deleteProject]
    rw [if_pos hcond]
  · intro hok
    simp only [deleteProject] at hok
    split at hok
    · exact absurd hok (by simp)
    · split at hok
      · exact absurd hok (by simp)
      · simp only [Except.ok.injEq] at hok
        subst hok
        refine ⟨?_, ?_, ?_, ?_⟩
        · simp only [List.all_eq_true]
          intro x hx
          exact (List.mem_filter.1 hx).2
        · simp only [List.all_eq_true, decide_eq_true_eq]
          intro x hx
          exact hx
        · simp only [List.all_eq_true]
          intro x hx
          exact (List.mem_filter.1 hx).2
        · simp only [List.all_eq_true, decide_eq_true_eq]
          intro x hx
          exact hx

/-- Two projects with one task each; an entry pins project 1. -/
def projDB : DB :=
  { users := [⟨1, "admin@omnigratum.com", "Admin User", "h1", "admin", "active", none, none⟩],
    projects := [⟨1, "P1", 1, "active"⟩, ⟨2, "P2", 1, "active"⟩],
    tasks := [⟨1, "T1", 1, "active"⟩, ⟨2, "T2", 2, "active"⟩],
    time_entries := [⟨8, 1, 1, 1, 0, some 10, 10, "timer", 0, none⟩],
    timer_sessions := [], timesheets := [], notifications := [] }

/-- The store after deleting the unreferenced project 2 from projDB. -/
def projDBdel : DB := okOr (deleteProject projDB 2) projDB

/-- Witness: deleting the referenced project 1 is refused and deleting the
unreferenced project 2 cascades to exactly its own task. -/
theorem project_delete_guard_witness :
    deleteProject projDB 1 = .error .fkRestrict ∧
    projDBdel.tasks.all (fun t => !(t.project_id == 2)) = true ∧
    (projDB.tasks.filter (fun t => !(t.project_id == 2))).all
      (fun t => decide (t ∈ projDBdel.tasks)) = true ∧
    projDBdel.projects.all (fun p => !(p.id == 2)) = true ∧
    (projDB.projects.filter (fun p => !(p.id == 2))).all
      (fun p => decide (p ∈ projDBdel.projects)) = true := by
  have h1 := project_delete_guard projDB projDB 1
  have h2 := project_delete_guard projDB projDBdel 2
  obtain ⟨g1, g2, g3, g4⟩ := h2.2 (by rfl)
  exact ⟨h1.1 (by decide), g1, g2, g3, g4⟩

/-- Pointwise truth transfers through List.map. -/
lemma all_map_pointwise {A B : Type} (l : List A) (g : A → B) (p : B → Bool)
    (h : ∀ a ∈ l, p (g a) = true) : (l.map g).all p = true := by
  simp only [List.all_eq_true]
  intro x hx
  obtain ⟨a, ha, rfl⟩ := List.mem_map.1 hx
  exact h a ha

/-- Truth on all elements survives filtering. -/
lemma all_filter_sub {A : Type} (l : List A) (q p : A → Bool)
    (h : l.all p = true) : (l.filter q).all p = true := by
  simp only [List.all_eq_true] at h ⊢
  intro x hx
  exact h x (List.mem_filter.1 hx).1

/-- The four table-wise components of the CHECK-constraint invariant. -/
lemma enumOk_parts {db : DB} (h : enumOk db = true) :
    db.users.all userRowOk = true ∧ db.time_entries.all timeEntryRowOk = true ∧
    db.timesheets.all timesheetRowOk = true ∧
    db.notifications.all notificationRowOk = true := by
  simp only [enumOk, Bool.and_eq_true] at h
  exact ⟨h.1.1.1, h.1.1.2, h.1.2, h.2⟩

/-- C8: a schema-valid store keeps every enumerated column inside its listed
value set; the store rejects an insert that breaks a CHECK constraint; and
every core operation preserves the CHECK-constraint invariant, since the rows
it creates or rewrites only carry the listed values. -/
theorem enum_columns_constrained (db db' : DB) (u : UserRow)
    (uid pid tid sid eid reqd tsId nb nid reviewer : UUID)
    (now th s e ws : Int) (notes comment : Option String) (d : Decision) :
    (dbValid db = true → enumOk db = true) ∧
    (userRowOk u = false → isOkE (insertUser db u) = false) ∧
    (enumOk db = true → insertUser db u = .ok db' → enumOk db' = true) ∧
    (enumOk db = true → stop db uid now eid = .ok db' → enumOk db' = true) ∧
    (enumOk db = true → enumOk (reapSession db sid now th eid) = true) ∧
    (enumOk db = true → recordManual db uid pid tid s e notes eid = .ok db' →
      enumOk db' = true) ∧
    (enumOk db = true → deleteEntry db eid reqd = .ok db' → enumOk db' = true) ∧
    (enumOk db = true → enumOk (ensureDraft db uid ws tsId) = true) ∧
    (enumOk db = true → submit db tsId now nb = .ok db' → enumOk db' = true) ∧
    (enumOk db = true → review db tsId reviewer d comment now nid = .ok db' →
      enumOk db' = true) ∧
    (enumOk db = true → reopen db tsId = .ok db' → enumOk db' = true) := by
  refine ⟨?_, ?_, ?_, ?_, ?_, ?_, ?_, ?_, ?_, ?_, ?_⟩
  · exact fun hv => enum_of_dbValid hv
  · intro hcf
    simp only [insertUser]
    rw [if_pos (by simp [hcf])]
    rfl
  · intro he hop
    have parts := enumOk_parts he
    simp only [insertUser] at hop
    split at hop
    · exact absurd hop (by simp)
    · rename_i hchk
      split at hop
      · exact absurd hop (by simp)
      · split at hop
        · exact absurd hop (by simp)
        · simp only [Except.ok.injEq] at hop
          subst hop
          simp only [enumOk, Bool.and_eq_true]
          refine ⟨⟨⟨?_, parts.2.1⟩, parts.2.2.1⟩, parts.2.2.2⟩
          simp only [List.all_cons, Bool.and_eq_true]
          exact ⟨by simpa using hchk, parts.1⟩
  · intro he hop
    have parts := enumOk_parts he
    simp only [stop] at hop
    split at hop
    · exact absurd hop (by simp)
    · simp only [Except.ok.injEq] at hop
      subst hop
      simp only [enumOk, Bool.and_eq_true]
      refine ⟨⟨⟨parts.1, ?_⟩, parts.2.2.1⟩, parts.2.2.2⟩
      simp only [List.all_cons, Bool.and_eq_true]
      exact ⟨by simp [terminateSession, timeEntryRowOk], parts.2.1⟩
  · intro he
    have parts := enumOk_parts he
    unfold reapSession
    split
    · exact he
    · split
      · simp only [enumOk, Bool.and_eq_true]
        refine ⟨⟨⟨parts.1, ?_⟩, parts.2.2.1⟩, parts.2.2.2⟩
        simp only [List.all_cons, Bool.and_eq_true]
        exact ⟨by simp [terminateSession, timeEntryRowOk], parts.2.1⟩
      · exact he
  · intro he hop
    have parts := enumOk_parts he
    simp only [recordManual] at hop
    split at hop
    · exact absurd hop (by simp)
    · split at hop
      · split at hop
        · exact absurd hop (by simp)
        · split at hop
          · exact absurd hop (by simp)
          · simp only [Except.ok.injEq] at hop
            subst hop
            simp only [enumOk, Bool.and_eq_true]
            refine ⟨⟨⟨parts.1, ?_⟩, parts.2.2.1⟩, parts.2.2.2⟩
            simp only [List.all_cons, Bool.and_eq_true]
            exact ⟨by simp [timeEntryRowOk], parts.2.1⟩
      · exact absurd hop (by simp)
  · intro he hop
    have parts := enumOk_parts he
    have hts := parts.2.2.1
    rw [List.all_eq_true] at hts
    simp only [deleteEntry] at hop
    split at hop
    · exact absurd hop (by simp)
    · split at hop
      · exact absurd hop (by simp)
      · simp only [Except.ok.injEq] at hop
        subst hop
        simp only [recomputeAll, enumOk, Bool.and_eq_true]
        refine ⟨⟨⟨parts.1, ?_⟩, ?_⟩, parts.2.2.2⟩
        · exact all_filter_sub _ _ _ parts.2.1
        · refine all_map_pointwise _ _ _ ?_
          intro t ht
          have := hts t ht
          split
          · simpa [timesheetRowOk] using this
          · exact this
  · intro he
    have parts := enumOk_parts he
    have hts := parts.2.2.1
    rw [List.all_eq_true] at hts
    unfold ensureDraft
    split
    · split
      · simp only [enumOk, Bool.and_eq_true]
        refine ⟨⟨⟨parts.1, parts.2.1⟩, ?_⟩, parts.2.2.2⟩
        refine all_map_pointwise _ _ _ ?_
        intro t ht
        have := hts t ht
        split
        · simpa [timesheetRowOk] using this
        · exact this
      · exact he
    · simp only [enumOk, Bool.and_eq_true]
      refine ⟨⟨⟨parts.1, parts.2.1⟩, ?_⟩, parts.2.2.2⟩
      simp only [List.all_cons, Bool.and_eq_true]
      exact ⟨rfl, parts.2.2.1⟩
  · intro he hop
    have parts := enumOk_parts he
    have hts := parts.2.2.1
    rw [List.all_eq_true] at hts
    simp only [submit] at hop
    split at hop
    · exact absurd hop (by simp)
    · split at hop
      · exact absurd hop (by simp)
      · simp only [Except.ok.injEq] at hop
        subst hop
        simp only [enumOk, Bool.and_eq_true]
        refine ⟨⟨⟨parts.1, parts.2.1⟩, ?_⟩, ?_⟩
        · refine all_map_pointwise _ _ _ ?_
          intro t ht
          have := hts t ht
          split
          · rfl
          · exact this
        · simp only [List.all_append, Bool.and_eq_true]
          refine ⟨?_, parts.2.2.2⟩
          refine all_map_pointwise _ _ _ ?_
          intro p hp
          rfl
  · intro he hop
    have parts := enumOk_parts he
    have hts := parts.2.2.1
    rw [List.all_eq_true] at hts
    simp only [review] at hop
    split at hop
    · exact absurd hop (by simp)
    · split at hop
      · exact absurd hop (by simp)
      · split at hop
        · simp only [Except.ok.injEq] at hop
          subst hop
          simp only [enumOk, Bool.and_eq_true]
          refine ⟨⟨⟨parts.1, parts.2.1⟩, ?_⟩, ?_⟩
          · refine all_map_pointwise _ _ _ ?_
            intro t ht
            have := hts t ht
            split
            · rfl
            · exact this
          · simp only [List.all_cons, Bool.and_eq_true]
            exact ⟨rfl, parts.2.2.2⟩
        · split at hop
          · exact absurd hop (by simp)
          · simp only [Except.ok.injEq] at hop
            subst hop
            simp only [enumOk, Bool.and_eq_true]
            refine ⟨⟨⟨parts.1, parts.2.1⟩, ?_⟩, ?_⟩
            · refine all_map_pointwise _ _ _ ?_
              intro t ht
              have := hts t ht
              split
              · rfl
              · exact this
            · simp only [List.all_cons, Bool.and_eq_true]
              exact ⟨rfl, parts.2.2.2⟩
  · intro he hop
    have parts := enumOk_parts he
    have hts := parts.2.2.1
    rw [List.all_eq_true] at hts
    simp only [reopen] at hop
    split at hop
    · exact absurd hop (by simp)
    · split at hop
      · exact absurd hop (by simp)
      · simp only [Except.ok.injEq] at hop
        subst hop
        simp only [enumOk, Bool.and_eq_true]
        refine ⟨⟨⟨parts.1, parts.2.1⟩, ?_⟩, parts.2.2.2⟩
        refine all_map_pointwise _ _ _ ?_
        intro t ht
        have := hts t ht
        split
        · rfl
        · exact this

/-- Witness: the concrete store is schema-valid, a CHECK-violating insert is
refused, and every core operation run on it keeps the enumerated columns
inside the listed value sets. -/
theorem enum_columns_constrained_witness :
    enumOk coreDB = true ∧
    isOkE (insertUser coreDB ⟨4, "x@y.z", "X", "h", "superuser", "active", none, none⟩) = false ∧
    enumOk (okOr (insertUser coreDB ⟨4, "new@omnigratum.com", "N", "h", "employee", "active", none, none⟩) coreDB) = true ∧
    enumOk (okOr (stop coreDB 2 500 50) coreDB) = true ∧
    enumOk (reapSession coreDB 7 500 200 50) = true ∧
    enumOk (okOr (recordManual coreDB 1 1 1 0 60 none 52) coreDB) = true ∧
    enumOk (okOr (deleteEntry coreDB 8 1) coreDB) = true ∧
    enumOk (ensureDraft coreDB 1 0 9) = true ∧
    enumOk (okOr (submit coreDB 9 500 30) coreDB) = true ∧
    enumOk (okOr (review coreDB 10 1 Decision.deny (some "fix") 500 31) coreDB) = true ∧
    enumOk (okOr (reopen coreDB 11) coreDB) = true := by
  have hA := enum_columns_constrained coreDB coreDB
    ⟨4, "x@y.z", "X", "h", "superuser", "active", none, none⟩
    1 1 1 7 50 1 9 30 31 1 500 200 0 60 0 none none Decision.approve
  have hB := enum_columns_constrained coreDB
    (okOr (insertUser coreDB ⟨4, "new@omnigratum.com", "N", "h", "employee", "active", none, none⟩) coreDB)
    ⟨4, "new@omnigratum.com", "N", "h", "employee", "active", none, none⟩
    1 1 1 7 50 1 9 30 31 1 500 200 0 60 0 none none Decision.approve
  have hC := enum_columns_constrained coreDB (okOr (stop coreDB 2 500 50) coreDB)
    ⟨4, "x@y.z", "X", "h", "employee", "active", none, none⟩
    2 1 1 7 50 1 9 30 31 1 500 200 0 60 0 none none Decision.approve
  have hD := enum_columns_constrained coreDB
    (okOr (recordManual coreDB 1 1 1 0 60 none 52) coreDB)
    ⟨4, "x@y.z", "X", "h", "employee", "active", none, none⟩
    1 1 1 7 52 1 9 30 31 1 500 200 0 60 0 none none Decision.approve
  have hE := enum_columns_constrained coreDB (okOr (deleteEntry coreDB 8 1) coreDB)
    ⟨4, "x@y.z", "X", "h", "employee", "active", none, none⟩
    1 1 1 7 8 1 9 30 31 1 500 200 0 60 0 none none Decision.approve
  have hF := enum_columns_constrained coreDB (okOr (submit coreDB 9 500 30) coreDB)
    ⟨4, "x@y.z", "X", "h", "employee", "active", none, none⟩
    1 1 1 7 50 1 9 30 31 1 500 200 0 60 0 none none Decision.approve
  have hG := enum_columns_constrained coreDB
    (okOr (review coreDB 10 1 Decision.deny (some "fix") 500 31) coreDB)
    ⟨4, "x@y.z", "X", "h", "employee", "active", none, none⟩
    1 1 1 7 50 1 10 30 31 1 500 200 0 60 0 none (some "fix") Decision.deny
  have hH := enum_columns_constrained coreDB (okOr (reopen coreDB 11) coreDB)
    ⟨4, "x@y.z", "X", "h", "employee", "active", none, none⟩
    1 1 1 7 50 1 11 30 31 1 500 200 0 60 0 none none Decision.approve
  refine ⟨hA.1 (by decide), hA.2.1 (by decide), hB.2.2.1 (by decide) (by rfl),
    hC.2.2.2.1 (by decide) (by rfl), hA.2.2.2.2.1 (by decide),
    hD.2.2.2.2.2.1 (by decide) (by rfl), hE.2.2.2.2.2.2.1 (by decide) (by rfl),
    hA.2.2.2.2.2.2.2.1 (by decide), hF.2.2.2.2.2.2.2.2.1 (by decide) (by rfl),
    hG.2.2.2.2.2.2.2.2.2.1 (by decide) (by rfl),
    hH.2.2.2.2.2.2.2.2.2.2 (by decide) (by rfl)⟩
